import Mathlib

/-!
Shallow embedding of the async request-orchestration core of tkr_utils
(src/helper_anthropic/async_manager.py and src/helper_anthropic/processor.py),
together with theorems settling the frozen claims about it.

Modelling conventions:
* Wall-clock time (Python time.time(), a float of seconds) is modelled as an
  Int number of seconds; every method that reads the clock takes the current
  time as an explicit argument.
* asyncio locks make each method body atomic with respect to the state it
  guards, so a method is a pure function from state (plus the clock and the
  environment's choices) to state.
* Operations that can suspend forever (a semaphore acquire with no free slot,
  an asyncio.Lock acquire on a lock the same task already holds) return none:
  the value none means the coroutine never resumes, not an exception.
-/

/-- State strings of CircuitBreaker.state (async_manager.py line 26):
closed, open, half-open. -/
inductive CBState
  | closed
  | opened
  | halfOpen
deriving DecidableEq

/-- CircuitBreakerConfig, async_manager.py lines 12-17, with its defaults
(failure_threshold 5, reset_timeout 60.0 s, half_open_timeout 5.0 s). -/
structure CircuitBreakerConfig where
  failure_threshold : Nat := 5
  reset_timeout : Int := 60
  half_open_timeout : Int := 5
deriving DecidableEq

/-- CircuitBreaker state, async_manager.py lines 19-27. -/
structure CircuitBreaker where
  config : CircuitBreakerConfig
  failures : Nat
  last_failure_time : Int
  state : CBState
deriving DecidableEq

/-- CircuitBreaker.__init__ (async_manager.py lines 22-27): zero failures,
last_failure_time 0, state closed. -/
def CircuitBreaker.init (config : CircuitBreakerConfig) : CircuitBreaker :=
  { config := config, failures := 0, last_failure_time := 0, state := .closed }

/-- CircuitBreaker.record_failure (async_manager.py lines 29-36): increment
failures, stamp last_failure_time, and open the circuit when the new count
reaches the threshold. -/
def CircuitBreaker.record_failure (cb : CircuitBreaker) (now : Int) : CircuitBreaker :=
  let cb2 := { cb with failures := cb.failures + 1, last_failure_time := now }
  if cb2.config.failure_threshold ≤ cb2.failures then { cb2 with state := .opened } else cb2

/-- CircuitBreaker.can_execute (async_manager.py lines 38-53). Returns the
verdict together with the (possibly updated) breaker: the open state moves to
half-open once reset_timeout has elapsed since the last failure. -/
def CircuitBreaker.can_execute (cb : CircuitBreaker) (now : Int) : Bool × CircuitBreaker :=
  match cb.state with
  | .closed => (true, cb)
  | .opened =>
      if cb.config.reset_timeout < now - cb.last_failure_time then
        (true, { cb with state := .halfOpen })
      else (false, cb)
  | .halfOpen =>
      if cb.config.half_open_timeout < now - cb.last_failure_time then (true, cb)
      else (false, cb)

/-- CircuitBreaker.record_success (async_manager.py lines 55-61): only a
half-open breaker reacts, closing and resetting the failure count. -/
def CircuitBreaker.record_success (cb : CircuitBreaker) : CircuitBreaker :=
  if cb.state = .halfOpen then { cb with state := .closed, failures := 0 } else cb

/-- One breaker-visible event of a run: a recorded failure (at a time) or a
recorded success. -/
inductive CBEvent
  | failure (t : Int)
  | success
deriving DecidableEq

/-- Apply a sequence of record_failure / record_success calls to a breaker. -/
def CircuitBreaker.runEvents (cb : CircuitBreaker) : List CBEvent → CircuitBreaker
  | [] => cb
  | CBEvent.failure t :: rest => (cb.record_failure t).runEvents rest
  | CBEvent.success :: rest => cb.record_success.runEvents rest

/-- Number of failure events in a sequence. -/
def countFailures : List CBEvent → Nat
  | [] => 0
  | CBEvent.failure _ :: rest => countFailures rest + 1
  | CBEvent.success :: rest => countFailures rest

/-- RateLimits (models.py lines 12-21): per-minute request and token budgets. -/
structure RateLimits where
  requests_per_minute : Int
  tokens_per_minute : Int
deriving DecidableEq

/-- AsyncRequestManager state (async_manager.py lines 63-101).
semaphore models the lazily created asyncio.Semaphore (line 85 and 103-108):
none before first use, some v when created with v slots currently available.
requests_made / tokens_used / last_reset are the rate-limiting counters,
active_permits the diagnostic permit counter. -/
structure AsyncRequestManager where
  rate_limits : RateLimits
  max_concurrent : Nat
  chunk_size : Nat
  circuit_breaker : CircuitBreaker
  semaphore : Option Nat
  requests_made : Int
  tokens_used : Int
  last_reset : Int
  active_permits : Nat
deriving DecidableEq

/-- AsyncRequestManager.__init__ (async_manager.py lines 66-101) at a given
construction time (time.time() stored into last_reset). -/
def AsyncRequestManager.init (rate_limits : RateLimits) (max_concurrent : Nat)
    (chunk_size : Nat) (now : Int) : AsyncRequestManager :=
  { rate_limits := rate_limits
    max_concurrent := max_concurrent
    chunk_size := chunk_size
    circuit_breaker := CircuitBreaker.init {}
    semaphore := none
    requests_made := 0
    tokens_used := 0
    last_reset := now
    active_permits := 0 }

/-- Currently available concurrency slots: the semaphore's value, or the full
capacity if the semaphore has not been created yet (creation initializes it
with max_concurrent slots, async_manager.py lines 103-108). -/
def AsyncRequestManager.slots (m : AsyncRequestManager) : Nat :=
  m.semaphore.getD m.max_concurrent

/-- AsyncRequestManager.chunk_requests (async_manager.py lines 110-115),
with self.chunk_size as an explicit parameter. The Python list comprehension
iterates i over range(0, len(requests), chunk_size) - for chunk_size > 0 that
range has ceil(len/chunk_size) elements 0, chunk_size, 2*chunk_size, ... -
and takes the slice requests[i : i + chunk_size]. -/
def chunk_requests (chunk_size : Nat) (requests : List α) : List (List α) :=
  (List.range' 0 ((requests.length + chunk_size - 1) / chunk_size) chunk_size).map
    (fun i => (requests.drop i).take chunk_size)

/-- AsyncRequestManager.check_rate_limits (async_manager.py lines 117-138):
under the rate-limit lock, reset the window (and admit) when 60 seconds have
elapsed, deny when either budget is exhausted, otherwise count the call and
admit. -/
def AsyncRequestManager.check_rate_limits (m : AsyncRequestManager) (now : Int)
    (tokens : Int) : Bool × AsyncRequestManager :=
  let elapsed := now - m.last_reset
  if 60 ≤ elapsed then
    (true, { m with requests_made := 0, tokens_used := 0, last_reset := now })
  else if m.rate_limits.requests_per_minute ≤ m.requests_made ∨
      m.rate_limits.tokens_per_minute ≤ m.tokens_used + tokens then
    (false, m)
  else
    (true, { m with requests_made := m.requests_made + 1,
                    tokens_used := m.tokens_used + tokens })

/-- AsyncRequestManager.release_permit (async_manager.py lines 163-174).
If the semaphore exists, its release() runs: an asyncio.Semaphore release
always increments the available-slot count and never raises ValueError
(asyncio.Semaphore is unbounded; the except ValueError handler at line 171
is unreachable for it), then active_permits is decremented if positive.
If the semaphore was never created, nothing happens. -/
def AsyncRequestManager.release_permit (m : AsyncRequestManager) : AsyncRequestManager :=
  match m.semaphore with
  | none => m
  | some v =>
      { m with semaphore := some (v + 1),
               active_permits :=
                 if 0 < m.active_permits then m.active_permits - 1 else m.active_permits }

/-- AsyncRequestManager.acquire_permit (async_manager.py lines 140-161).
Arguments: the clock, and exc, which models an unexpected exception raised by
one of the awaits inside the try block after the slot was acquired (the
except branch, lines 158-161). Result none models the semaphore acquire
suspending with no free slot; some (b, m2) is the returned verdict and the
updated state. The circuit-breaker check runs first and consumes no slot;
the semaphore is created lazily on first acquisition. -/
def AsyncRequestManager.acquire_permit (m : AsyncRequestManager) (now : Int)
    (exc : Bool) : Option (Bool × AsyncRequestManager) :=
  let ce := m.circuit_breaker.can_execute now
  let m1 := { m with circuit_breaker := ce.2 }
  if ce.1 = false then some (false, m1)
  else
    let v := m1.semaphore.getD m1.max_concurrent
    if v = 0 then none
    else
      let m2 := { m1 with semaphore := some (v - 1),
                          active_permits := m1.active_permits + 1 }
      if exc then some (false, m2.release_permit)
      else
        let rc := m2.check_rate_limits now 0
        if rc.1 then some (true, rc.2) else some (false, rc.2.release_permit)

/-- AsyncRequestManager.record_success (async_manager.py lines 198-204). -/
def AsyncRequestManager.record_success (m : AsyncRequestManager) : AsyncRequestManager :=
  { m with circuit_breaker := m.circuit_breaker.record_success }

/-- AsyncRequestManager.record_failure (async_manager.py lines 206-212). -/
def AsyncRequestManager.record_failure (m : AsyncRequestManager) (now : Int) :
    AsyncRequestManager :=
  { m with circuit_breaker := m.circuit_breaker.record_failure now }

/-- The release_permit body as invoked from inside cleanup's while loop,
where the calling task already holds _permits_lock (async_manager.py
lines 180-182 hold the lock around the loop). When the semaphore exists its
release() runs, but the following async-with on _permits_lock (line 168) can
never be entered: asyncio.Lock is not reentrant and the holder is this very
task, so the coroutine suspends forever (none). When the semaphore is None,
release_permit returns without touching active_permits. -/
def AsyncRequestManager.release_permit_locked (m : AsyncRequestManager) :
    Option AsyncRequestManager :=
  match m.semaphore with
  | none => some m
  | some _ => none

/-- The while loop of AsyncRequestManager.cleanup (async_manager.py lines
181-182), executed while holding _permits_lock, run for at most fuel
iterations; none means the loop had not completed within fuel steps (for this
loop: it never completes, by theorem). -/
def AsyncRequestManager.cleanup_loop : Nat → AsyncRequestManager → Option AsyncRequestManager
  | 0, m => if 0 < m.active_permits then none else some m
  | fuel + 1, m =>
      if 0 < m.active_permits then
        match m.release_permit_locked with
        | none => none
        | some m2 => AsyncRequestManager.cleanup_loop fuel m2
      else some m

/-- AsyncRequestManager.cleanup (async_manager.py lines 176-188): run the
permit-draining while loop under _permits_lock, then clear the semaphore.
The fuel bounds the observed loop iterations; none means cleanup never
completed within fuel steps. The try-except around the body catches
exceptions only, not a coroutine that never resumes. -/
def AsyncRequestManager.cleanup (fuel : Nat) (m : AsyncRequestManager) :
    Option AsyncRequestManager :=
  (AsyncRequestManager.cleanup_loop fuel m).map fun m2 => { m2 with semaphore := none }

/-- APIResponse (models.py lines 23-30); the metadata field is omitted: every
response built by the processor leaves it at its default None. -/
structure APIResponse where
  content : String
  request_id : String
  success : Bool
  error : Option String
deriving DecidableEq

/-- Result of the awaited remote call inside _process_single_request:
either client.send_message returned a response, or some await raised. -/
inductive CallResult
  | ok (r : APIResponse)
  | exn (msg : String)
deriving DecidableEq

/-- The failure response built from a caught exception message
(processor.py lines 160-165 and 119-126 build the same shape). -/
def taskErrorResponse (msg : String) : APIResponse :=
  { content := "", request_id := "", success := false, error := some msg }

/-- Effect of RequestProcessor._process_single_request (processor.py lines
130-168) on the manager, given the remote call's result: on a normal return,
record_success then (finally) release_permit; on an exception, record_failure,
build the failure response, then (finally) release_permit. The stats
active_requests updates (+1 on entry, -1 in the finally block) cancel out by
the time the task's result is observed. -/
def AsyncRequestManager.process_single_request (m : AsyncRequestManager)
    (res : CallResult) (now : Int) : APIResponse × AsyncRequestManager :=
  match res with
  | .ok r => (r, m.record_success.release_permit)
  | .exn msg => (taskErrorResponse msg, (m.record_failure now).release_permit)

/-- One per-request step of the orchestration as driven by process_chunk
(processor.py lines 90-94): acquire a permit at time t (exc as in
acquire_permit); when granted, the dispatched _process_single_request runs to
completion with result res. none models the acquire suspending forever. -/
def AsyncRequestManager.request_step (m : AsyncRequestManager) (t : Int) (exc : Bool)
    (res : CallResult) : Option AsyncRequestManager :=
  match m.acquire_permit t exc with
  | none => none
  | some (false, m2) => some m2
  | some (true, m2) => some (m2.process_single_request res t).2

/-- Run a batch's worth of per-request steps in sequence. -/
def AsyncRequestManager.runRequests (m : AsyncRequestManager) :
    List (Int × Bool × CallResult) → Option AsyncRequestManager
  | [] => some m
  | (t, exc, res) :: rest =>
      match m.request_step t exc res with
      | none => none
      | some m2 => m2.runRequests rest

/-- Processing statistics (processor.py lines 60-65). -/
structure Stats where
  processed : Nat
  failed : Nat
  total_chunks : Nat
  active_requests : Int
deriving DecidableEq

/-- The stats reset performed at the start of process_batch
(processor.py lines 185-190) and at construction. -/
def resetStats : Stats :=
  { processed := 0, failed := 0, total_chunks := 0, active_requests := 0 }

/-- Fate of one request of a chunk, as decided by the environment: denied
means acquire_permit returned False (processor.py line 95); completed r means
the task created for it returned response r at its await (line 108;
_process_single_request catches exceptions itself, so this is the normal
case); raised msg means the await of the task raised (lines 116-126). -/
inductive Fate
  | denied
  | completed (r : APIResponse)
  | raised (msg : String)
deriving DecidableEq

/-- Test used below: did this request fail to get a permit. -/
def Fate.isDenied : Fate → Bool
  | .denied => true
  | _ => false

/-- The response synthesized for a permit-denied request
(processor.py lines 97-104). -/
def failedAcquireResponse : APIResponse :=
  { content := "", request_id := "", success := false,
    error := some ("Failed to acquire request permit") }

/-- The response each fate contributes to the chunk's outcome list. -/
def Fate.outcome : Fate → APIResponse
  | .denied => failedAcquireResponse
  | .completed r => r
  | .raised msg => taskErrorResponse msg

/-- The dispatch loop of process_chunk (processor.py lines 90-104): walk the
chunk in submission order; a denied request has its synthesized failure
appended to responses immediately, a granted request has its task appended to
tasks. Returns (responses so far, tasks in submission order). -/
def dispatchLoop : List Fate → List APIResponse × List Fate
  | [] => ([], [])
  | f :: rest =>
      let p := dispatchLoop rest
      match f with
      | .denied => (failedAcquireResponse :: p.1, p.2)
      | _ => (p.1, f :: p.2)

/-- The collection loop of process_chunk (processor.py lines 106-126): await
each task in submission order; a returned response is appended and counted
(processed when success, else failed); a raising await is counted as failed
and a failure response with the exception text is appended. The denied case
cannot occur in a task list; it contributes nothing. -/
def awaitLoop : List Fate → Stats → List APIResponse × Stats
  | [], st => ([], st)
  | Fate.completed r :: rest, st =>
      let st2 := if r.success then { st with processed := st.processed + 1 }
                 else { st with failed := st.failed + 1 }
      let p := awaitLoop rest st2
      (r :: p.1, p.2)
  | Fate.raised msg :: rest, st =>
      let st2 := { st with failed := st.failed + 1 }
      let p := awaitLoop rest st2
      (taskErrorResponse msg :: p.1, p.2)
  | Fate.denied :: rest, st => awaitLoop rest st

/-- RequestProcessor.process_chunk (processor.py lines 75-128): the dispatch
loop fills responses with the denied requests' synthesized failures (in
submission order), then the collection loop appends each task's outcome in
submission order, updating stats. -/
def process_chunk (chunk : List Fate) (st : Stats) : List APIResponse × Stats :=
  let d := dispatchLoop chunk
  let a := awaitLoop d.2 st
  (d.1 ++ a.1, a.2)

/-- How one chunk's process_chunk call ended, as decided by the environment:
ok fates - it returned normally, with fates listing each request's fate in
submission order; err msg - it raised (the inner except, processor.py lines
211-222). -/
inductive ChunkRun
  | ok (fates : List Fate)
  | err (msg : String)
deriving DecidableEq

/-- The failure response built for every request of a chunk whose
process_chunk call raised (processor.py lines 214-221); i is the 1-based
chunk number. -/
def chunkFailResponse (i : Nat) (msg : String) : APIResponse :=
  { content := "", request_id := "", success := false,
    error := some ("Chunk " ++ toString i ++ " failed: " ++ msg) }

/-- Body of one iteration of the batch loop for chunk number i
(processor.py lines 203-222): a normal process_chunk return contributes its
responses and stats updates; a raising one contributes one failure response
per request of the chunk and adds the chunk's length to failed. -/
def runChunk (i : Nat) (c : List α) (run : ChunkRun) (st : Stats) :
    List APIResponse × Stats :=
  match run with
  | .ok fates => process_chunk fates st
  | .err msg =>
      (c.map fun _ => chunkFailResponse i msg,
       { st with failed := st.failed + c.length })

/-- The batch loop of process_batch (processor.py lines 198-226) over the
chunks paired with their runs, starting at chunk number i. abort = some j
models a fatal outer-loop condition (caught at line 224) striking right
before the j-th remaining chunk is processed: the loop stops there and the
outer except falls through to return what was collected so far - abort =
some 0 aborts immediately. abort = none means no fatal condition occurs. -/
def batchLoop : List (List α × ChunkRun) → Option Nat → Nat → Stats →
    List APIResponse × Stats
  | [], _, _, st => ([], st)
  | _ :: _, some 0, _, st => ([], st)
  | (c, run) :: rest, abort, i, st =>
      let p := runChunk i c run st
      let q := batchLoop rest (abort.map fun j => j - 1) (i + 1) p.2
      (p.1 ++ q.1, q.2)

/-- RequestProcessor.process_batch (processor.py lines 170-235): reset stats,
chunk the requests (line 193), count the chunks into total_chunks, then run
the batch loop (chunk numbering starts at 1, line 200). plan supplies each
chunk's execution, abort the fatal-condition point as in batchLoop. The
returned pair is (all_responses, final stats). -/
def process_batch (chunk_size : Nat) (requests : List α) (plan : List ChunkRun)
    (abort : Option Nat) : List APIResponse × Stats :=
  let chunks := chunk_requests chunk_size requests
  let st := { resetStats with total_chunks := resetStats.total_chunks + chunks.length }
  batchLoop (chunks.zip plan) abort 1 st

/-- Alignment of a plan with the chunk list: same length, and a normally
returning chunk has exactly one fate per request. -/
def alignedPlan : List (List α) → List ChunkRun → Bool
  | [], [] => true
  | c :: cs, ChunkRun.ok fates :: ps => fates.length == c.length && alignedPlan cs ps
  | _ :: cs, ChunkRun.err _ :: ps => alignedPlan cs ps
  | _, _ => false

/-- Number of permit-denied requests in one chunk's fates. -/
def deniedCount (fates : List Fate) : Nat := (fates.filter Fate.isDenied).length

/-- Number of permit-denied requests across a whole plan (chunks whose
process_chunk raised contribute none). -/
def planDenied : List ChunkRun → Nat
  | [] => 0
  | ChunkRun.ok fates :: rest => deniedCount fates + planDenied rest
  | ChunkRun.err _ :: rest => planDenied rest

/-- Number of permit-denied requests one chunk's run contributes. -/
def runDenied : ChunkRun → Nat
  | .ok fates => deniedCount fates
  | .err _ => 0

/-- Per-chunk outcome lists, in chunk order, starting at chunk number i (the
stats argument of runChunk does not influence its outcome list, so resetStats
stands in for it). -/
def chunkOutcomeLists : Nat → List (List α × ChunkRun) → List (List APIResponse)
  | _, [] => []
  | i, (c, run) :: rest =>
      (runChunk i c run resetStats).1 :: chunkOutcomeLists (i + 1) rest

/-- A successful remote-call response used in concrete instances. -/
def respA : APIResponse :=
  { content := "a", request_id := "a", success := true, error := none }

/-- A second successful remote-call response used in concrete instances. -/
def respB : APIResponse :=
  { content := "b", request_id := "b", success := true, error := none }

/-- Rate limits with requests_per_minute 2, as in the C6 scenario. -/
def rlTwo : RateLimits := { requests_per_minute := 2, tokens_per_minute := 1000 }

/-- A freshly constructed manager (construction time 0) with the C6 limits. -/
def mFresh : AsyncRequestManager := AsyncRequestManager.init rlTwo 5 10 0

/-- A manager whose semaphore exists with all five slots free and with no
permit held - the state right after a batch in which every permit was
matched by a release. -/
def mIdle : AsyncRequestManager := { mFresh with semaphore := some 5 }

/-- A manager still holding one active permit (semaphore created, one slot
out) - the state cleanup would face after an error path leaked a permit. -/
def mHolding : AsyncRequestManager :=
  { mFresh with semaphore := some 4, active_permits := 1 }

/-- A breaker taken from fresh through five recorded failures: it has just
opened with failures = 5 = failure_threshold and last_failure_time 0. -/
def cbOpened : CircuitBreaker :=
  (((((CircuitBreaker.init {}).record_failure 0).record_failure 0).record_failure
      0).record_failure 0).record_failure 0

/-- Five failures interleaved with successes, never five consecutive. -/
def evsInterleaved : List CBEvent :=
  [CBEvent.failure 0, CBEvent.success, CBEvent.failure 1, CBEvent.success,
   CBEvent.failure 2, CBEvent.success, CBEvent.failure 3, CBEvent.failure 4]

/-- A two-request step sequence: one call succeeds, one raises. -/
def stepsTwo : List (Int × Bool × CallResult) :=
  [(0, false, CallResult.ok respA), (1, false, CallResult.exn "boom")]

/-! Lemmas about chunk_requests (C9 and the batch-level claims). -/

theorem chunk_requests_nil (k : Nat) : chunk_requests k ([] : List α) = [] := by
  have h : (List.length ([] : List α) + k - 1) / k = 0 := by
    cases k with
    | zero => simp
    | succ n => exact Nat.div_eq_of_lt (by simp only [List.length_nil]; omega)
  unfold chunk_requests
  rw [h, List.range'_zero, List.map_nil]

theorem chunk_requests_cons (k : Nat) (hk : 0 < k) (a : α) (l : List α) :
    chunk_requests k (a :: l) =
      (a :: l).take k :: chunk_requests k ((a :: l).drop k) := by
  unfold chunk_requests
  have hn : ((a :: l).length + k - 1) / k = l.length / k + 1 := by
    have h1 : (a :: l).length + k - 1 = l.length + k := by
      simp only [List.length_cons]; omega
    rw [h1, Nat.add_div_right _ hk]
  have hm : (((a :: l).drop k).length + k - 1) / k = l.length / k := by
    simp only [List.length_drop, List.length_cons]
    rcases le_or_lt k (l.length + 1) with h | h
    · congr 1
      omega
    · rw [Nat.sub_eq_zero_of_le (le_of_lt h), Nat.div_eq_of_lt (by omega),
        Nat.div_eq_of_lt (by omega)]
  rw [hn, hm, List.range'_succ, List.map_cons, List.drop_zero]
  congr 1
  have hshift : 0 + k = k + 0 := by omega
  rw [hshift, ← List.map_add_range', List.map_map]
  apply List.map_congr_left
  intro i _
  simp only [Function.comp_apply, List.drop_drop]

theorem chunk_requests_flatten_aux (k : Nat) (hk : 0 < k) :
    ∀ (n : Nat) (l : List α), l.length ≤ n → (chunk_requests k l).flatten = l := by
  intro n
  induction n with
  | zero =>
    intro l hl
    have h : l = [] := List.eq_nil_of_length_eq_zero (Nat.le_zero.mp hl)
    subst h
    rw [chunk_requests_nil]
    rfl
  | succ n ih =>
    intro l hl
    rcases l with _ | ⟨a, l2⟩
    · rw [chunk_requests_nil]; rfl
    · rw [chunk_requests_cons k hk, List.flatten_cons,
        ih ((a :: l2).drop k) (by simp only [List.length_drop, List.length_cons] at *; omega)]
      exact List.take_append_drop k (a :: l2)

theorem chunk_requests_flatten (k : Nat) (hk : 0 < k) (l : List α) :
    (chunk_requests k l).flatten = l :=
  chunk_requests_flatten_aux k hk l.length l le_rfl

theorem chunk_requests_length_le (k : Nat) (l : List α) :
    ∀ c ∈ chunk_requests k l, c.length ≤ k := by
  intro c hc
  unfold chunk_requests at hc
  simp only [List.mem_map] at hc
  obtain ⟨i, _, rfl⟩ := hc
  simp only [List.length_take]
  exact min_le_left _ _

theorem chunk_requests_eq_nil_iff (k : Nat) (hk : 0 < k) (l : List α) :
    chunk_requests k l = [] ↔ l = [] := by
  constructor
  · intro h
    rcases l with _ | ⟨a, l2⟩
    · rfl
    · rw [chunk_requests_cons k hk] at h
      exact absurd h (by simp)
  · intro h
    subst h
    exact chunk_requests_nil k

theorem chunk_requests_dropLast_aux (k : Nat) (hk : 0 < k) :
    ∀ (n : Nat) (l : List α), l.length ≤ n →
      ∀ c ∈ (chunk_requests k l).dropLast, c.length = k := by
  intro n
  induction n with
  | zero =>
    intro l hl c hc
    have h : l = [] := List.eq_nil_of_length_eq_zero (Nat.le_zero.mp hl)
    subst h
    rw [chunk_requests_nil] at hc
    simp at hc
  | succ n ih =>
    intro l hl c hc
    rcases l with _ | ⟨a, l2⟩
    · rw [chunk_requests_nil] at hc
      simp at hc
    · rw [chunk_requests_cons k hk] at hc
      by_cases hrest : (a :: l2).drop k = []
      · rw [hrest, chunk_requests_nil] at hc
        simp at hc
      · have hne : chunk_requests k ((a :: l2).drop k) ≠ [] := by
          rw [Ne, chunk_requests_eq_nil_iff k hk]
          exact hrest
        rw [List.dropLast_cons_of_ne_nil hne] at hc
        rcases List.mem_cons.mp hc with hc | hc
        · subst hc
          have hlen : k ≤ (a :: l2).length := by
            by_contra hlt
            push_neg at hlt
            exact hrest (List.drop_eq_nil_iff.mpr (le_of_lt hlt))
          simp only [List.length_take]
          exact Nat.min_eq_left hlen
        · exact ih ((a :: l2).drop k)
            (by simp only [List.length_drop, List.length_cons] at *; omega) c hc

theorem chunk_requests_dropLast (k : Nat) (hk : 0 < k) (l : List α) :
    ∀ c ∈ (chunk_requests k l).dropLast, c.length = k :=
  chunk_requests_dropLast_aux k hk l.length l le_rfl

theorem chunk_requests_sum_lengths (k : Nat) (hk : 0 < k) (l : List α) :
    ((chunk_requests k l).map List.length).sum = l.length := by
  rw [← List.length_flatten, chunk_requests_flatten k hk]

/-! Lemmas about the processor model (C1, C2, C3). -/

theorem isDenied_denied : Fate.isDenied Fate.denied = true := rfl

theorem isDenied_completed (r : APIResponse) : Fate.isDenied (Fate.completed r) = false := rfl

theorem isDenied_raised (msg : String) : Fate.isDenied (Fate.raised msg) = false := rfl

theorem outcome_denied : Fate.outcome Fate.denied = failedAcquireResponse := rfl

theorem outcome_completed (r : APIResponse) : Fate.outcome (Fate.completed r) = r := rfl

theorem outcome_raised (msg : String) :
    Fate.outcome (Fate.raised msg) = taskErrorResponse msg := rfl

theorem length_filter_add_length_not (p : α → Bool) (l : List α) :
    (l.filter p).length + (l.filter fun a => !(p a)).length = l.length := by
  induction l with
  | nil => rfl
  | cons a rest ih =>
    cases h : p a with
    | true =>
      simp [List.filter_cons, h]
      omega
    | false =>
      simp [List.filter_cons, h]
      omega

theorem dispatchLoop_fst (fs : List Fate) :
    (dispatchLoop fs).1 = (fs.filter Fate.isDenied).map Fate.outcome := by
  induction fs with
  | nil => rfl
  | cons f rest ih =>
    cases f with
    | denied =>
      simp [dispatchLoop, List.filter_cons, isDenied_denied, outcome_denied, ih]
    | completed r =>
      simp [dispatchLoop, List.filter_cons, isDenied_completed, ih]
    | raised msg =>
      simp [dispatchLoop, List.filter_cons, isDenied_raised, ih]

theorem dispatchLoop_snd (fs : List Fate) :
    (dispatchLoop fs).2 = fs.filter fun f => !(f.isDenied) := by
  induction fs with
  | nil => rfl
  | cons f rest ih =>
    cases f with
    | denied =>
      simp [dispatchLoop, List.filter_cons, isDenied_denied, ih]
    | completed r =>
      simp [dispatchLoop, List.filter_cons, isDenied_completed, ih]
    | raised msg =>
      simp [dispatchLoop, List.filter_cons, isDenied_raised, ih]

theorem awaitLoop_fst (fs : List Fate) :
    ∀ st : Stats,
      (awaitLoop fs st).1 = (fs.filter fun f => !(f.isDenied)).map Fate.outcome := by
  induction fs with
  | nil => intro st; rfl
  | cons f rest ih =>
    intro st
    cases f with
    | denied =>
      simp [awaitLoop, List.filter_cons, isDenied_denied, ih]
    | completed r =>
      simp [awaitLoop, List.filter_cons, isDenied_completed, outcome_completed, ih]
    | raised msg =>
      simp [awaitLoop, List.filter_cons, isDenied_raised, outcome_raised, ih]

theorem awaitLoop_stats (fs : List Fate) :
    ∀ st : Stats,
      (awaitLoop fs st).2.processed + (awaitLoop fs st).2.failed =
        st.processed + st.failed + (fs.filter fun f => !(f.isDenied)).length := by
  induction fs with
  | nil => intro st; simp [awaitLoop]
  | cons f rest ih =>
    intro st
    cases f with
    | denied =>
      simp [awaitLoop, List.filter_cons, isDenied_denied, ih]
    | completed r =>
      cases h : r.success with
      | true =>
        simp [awaitLoop, h, List.filter_cons, isDenied_completed, ih]
        omega
      | false =>
        simp [awaitLoop, h, List.filter_cons, isDenied_completed, ih]
        omega
    | raised msg =>
      simp [awaitLoop, List.filter_cons, isDenied_raised, ih]
      omega

theorem process_chunk_fst (fs : List Fate) (st : Stats) :
    (process_chunk fs st).1 =
      (fs.filter Fate.isDenied).map Fate.outcome ++
        (fs.filter fun f => !(f.isDenied)).map Fate.outcome := by
  show (dispatchLoop fs).1 ++ (awaitLoop (dispatchLoop fs).2 st).1 = _
  rw [dispatchLoop_fst, awaitLoop_fst, dispatchLoop_snd, List.filter_filter]
  simp only [Bool.and_self]

theorem process_chunk_length (fs : List Fate) (st : Stats) :
    (process_chunk fs st).1.length = fs.length := by
  rw [process_chunk_fst]
  simp only [List.length_append, List.length_map]
  exact length_filter_add_length_not Fate.isDenied fs

theorem process_chunk_stats (fs : List Fate) (st : Stats) :
    (process_chunk fs st).2.processed + (process_chunk fs st).2.failed + deniedCount fs =
      st.processed + st.failed + fs.length := by
  have h := awaitLoop_stats ((dispatchLoop fs).2) st
  rw [dispatchLoop_snd, List.filter_filter] at h
  simp only [Bool.and_self] at h
  have h2 := length_filter_add_length_not Fate.isDenied fs
  show (awaitLoop (dispatchLoop fs).2 st).2.processed +
      (awaitLoop (dispatchLoop fs).2 st).2.failed + deniedCount fs = _
  rw [dispatchLoop_snd]
  unfold deniedCount
  omega

theorem runChunk_fst_const (i : Nat) (c : List α) (run : ChunkRun) (st st2 : Stats) :
    (runChunk i c run st).1 = (runChunk i c run st2).1 := by
  cases run with
  | ok fates =>
    show (process_chunk fates st).1 = (process_chunk fates st2).1
    rw [process_chunk_fst, process_chunk_fst]
  | err msg => rfl

theorem batchLoop_stats (cs : List (List α)) :
    ∀ (ps : List ChunkRun) (i : Nat) (st : Stats), alignedPlan cs ps = true →
      (batchLoop (cs.zip ps) none i st).2.processed +
          (batchLoop (cs.zip ps) none i st).2.failed + planDenied ps =
        st.processed + st.failed + (cs.map List.length).sum := by
  induction cs with
  | nil =>
    intro ps i st h
    cases ps with
    | nil => simp [batchLoop, planDenied]
    | cons p ps2 => simp [alignedPlan] at h
  | cons c cs2 ih =>
    intro ps i st h
    cases ps with
    | nil => simp [alignedPlan] at h
    | cons p ps2 =>
      rw [List.zip_cons_cons]
      cases p with
      | ok fates =>
        have h1 : fates.length = c.length ∧ alignedPlan cs2 ps2 = true := by
          simpa only [alignedPlan, Bool.and_eq_true, beq_iff_eq] using h
        have hih := ih ps2 (i + 1) ((runChunk i c (ChunkRun.ok fates) st).2) h1.2
        have hc := process_chunk_stats fates st
        have hlen := h1.1
        simp only [batchLoop, runChunk, planDenied, Option.map_none', List.map_cons,
          List.sum_cons] at *
        omega
      | err msg =>
        have h2 : alignedPlan cs2 ps2 = true := h
        have hih := ih ps2 (i + 1) ((runChunk i c (ChunkRun.err msg) st).2) h2
        simp only [batchLoop, runChunk, planDenied, Option.map_none', List.map_cons,
          List.sum_cons] at *
        omega

theorem batchLoop_length (cs : List (List α)) :
    ∀ (ps : List ChunkRun) (i : Nat) (st : Stats), alignedPlan cs ps = true →
      (batchLoop (cs.zip ps) none i st).1.length = (cs.map List.length).sum := by
  induction cs with
  | nil =>
    intro ps i st h
    cases ps with
    | nil => simp [batchLoop]
    | cons p ps2 => simp [alignedPlan] at h
  | cons c cs2 ih =>
    intro ps i st h
    cases ps with
    | nil => simp [alignedPlan] at h
    | cons p ps2 =>
      rw [List.zip_cons_cons]
      cases p with
      | ok fates =>
        have h1 : fates.length = c.length ∧ alignedPlan cs2 ps2 = true := by
          simpa only [alignedPlan, Bool.and_eq_true, beq_iff_eq] using h
        have hih := ih ps2 (i + 1) ((runChunk i c (ChunkRun.ok fates) st).2) h1.2
        have hc := process_chunk_length fates st
        simp only [batchLoop, runChunk, Option.map_none', List.map_cons, List.sum_cons,
          List.length_append] at *
        omega
      | err msg =>
        have hih := ih ps2 (i + 1) ((runChunk i c (ChunkRun.err msg) st).2) h
        simp only [batchLoop, runChunk, Option.map_none', List.map_cons, List.sum_cons,
          List.length_append, List.length_map] at *
        omega

theorem batchLoop_abort_length (cs : List (List α)) :
    ∀ (ps : List ChunkRun) (j i : Nat) (st : Stats), alignedPlan cs ps = true →
      (batchLoop (cs.zip ps) (some j) i st).1.length =
        ((cs.take j).map List.length).sum := by
  induction cs with
  | nil =>
    intro ps j i st h
    cases ps with
    | nil => simp [batchLoop]
    | cons p ps2 => simp [alignedPlan] at h
  | cons c cs2 ih =>
    intro ps j i st h
    cases ps with
    | nil => simp [alignedPlan] at h
    | cons p ps2 =>
      rw [List.zip_cons_cons]
      cases j with
      | zero => simp [batchLoop]
      | succ j2 =>
        rw [List.take_succ_cons]
        cases p with
        | ok fates =>
          have h1 : fates.length = c.length ∧ alignedPlan cs2 ps2 = true := by
            simpa only [alignedPlan, Bool.and_eq_true, beq_iff_eq] using h
          have hih := ih ps2 j2 (i + 1) ((runChunk i c (ChunkRun.ok fates) st).2) h1.2
          have hc := process_chunk_length fates st
          simp only [batchLoop, runChunk, Option.map_some', Nat.succ_sub_one,
            List.map_cons, List.sum_cons, List.length_append] at *
          omega
        | err msg =>
          have hih := ih ps2 j2 (i + 1) ((runChunk i c (ChunkRun.err msg) st).2) h
          simp only [batchLoop, runChunk, Option.map_some', Nat.succ_sub_one,
            List.map_cons, List.sum_cons, List.length_append, List.length_map] at *
          omega

theorem batchLoop_flatten (pairs : List (List α × ChunkRun)) :
    ∀ (i : Nat) (st : Stats),
      (batchLoop pairs none i st).1 = (chunkOutcomeLists i pairs).flatten := by
  induction pairs with
  | nil => intro i st; rfl
  | cons pr rest ih =>
    intro i st
    obtain ⟨c, run⟩ := pr
    simp only [batchLoop, chunkOutcomeLists, List.flatten_cons, Option.map_none']
    rw [ih (i + 1), runChunk_fst_const i c run st resetStats]

/-! Lemmas about the manager: rate window, permit balance, cleanup. -/

theorem check_rate_limits_frame (m : AsyncRequestManager) (now tokens : Int) :
    (m.check_rate_limits now tokens).2.semaphore = m.semaphore ∧
    (m.check_rate_limits now tokens).2.max_concurrent = m.max_concurrent ∧
    (m.check_rate_limits now tokens).2.active_permits = m.active_permits := by
  simp only [AsyncRequestManager.check_rate_limits]
  split
  · exact ⟨rfl, rfl, rfl⟩
  · split
    · exact ⟨rfl, rfl, rfl⟩
    · exact ⟨rfl, rfl, rfl⟩

theorem check_rate_limits_reset (m : AsyncRequestManager) (now tokens : Int)
    (hw : 60 ≤ now - m.last_reset) :
    m.check_rate_limits now tokens =
      (true, { m with requests_made := 0, tokens_used := 0, last_reset := now }) := by
  simp only [AsyncRequestManager.check_rate_limits]
  rw [if_pos hw]

theorem check_rate_limits_deny (m : AsyncRequestManager) (now tokens : Int)
    (hw : ¬ 60 ≤ now - m.last_reset)
    (hlim : m.rate_limits.requests_per_minute ≤ m.requests_made ∨
        m.rate_limits.tokens_per_minute ≤ m.tokens_used + tokens) :
    m.check_rate_limits now tokens = (false, m) := by
  simp only [AsyncRequestManager.check_rate_limits]
  rw [if_neg hw, if_pos hlim]

theorem check_rate_limits_admit (m : AsyncRequestManager) (now tokens : Int)
    (hw : ¬ 60 ≤ now - m.last_reset)
    (hr : m.requests_made < m.rate_limits.requests_per_minute)
    (ht : m.tokens_used + tokens < m.rate_limits.tokens_per_minute) :
    m.check_rate_limits now tokens =
      (true, { m with requests_made := m.requests_made + 1,
                      tokens_used := m.tokens_used + tokens }) := by
  simp only [AsyncRequestManager.check_rate_limits]
  rw [if_neg hw, if_neg (by push_neg; exact ⟨hr, ht⟩)]

theorem release_permit_some (m : AsyncRequestManager) (v : Nat) (h : m.semaphore = some v) :
    m.release_permit =
      { m with semaphore := some (v + 1),
               active_permits :=
                 if 0 < m.active_permits then m.active_permits - 1 else m.active_permits } := by
  simp only [AsyncRequestManager.release_permit, h]

theorem acquire_permit_balance (m : AsyncRequestManager) (t : Int) (exc : Bool)
    (b : Bool) (m2 : AsyncRequestManager)
    (h : m.acquire_permit t exc = some (b, m2)) :
    (b = false → m2.slots = m.slots ∧ m2.active_permits = m.active_permits) ∧
    (b = true → m2.slots + 1 = m.slots ∧ m2.active_permits = m.active_permits + 1 ∧
      m2.semaphore = some (m.slots - 1) ∧ m2.max_concurrent = m.max_concurrent) := by
  simp only [AsyncRequestManager.acquire_permit] at h
  split at h
  · -- circuit breaker denies: no slot was consumed
    simp only [Option.some.injEq, Prod.mk.injEq] at h
    obtain ⟨hb, hm⟩ := h
    subst hb
    subst hm
    exact ⟨fun _ => ⟨rfl, rfl⟩, fun hb => by cases hb⟩
  · split at h
    · -- no free slot: the acquire suspends, no result is returned
      cases h
    · rename_i hce hv
      split at h
      · -- unexpected exception after the slot was acquired: released again
        simp only [Option.some.injEq, Prod.mk.injEq] at h
        obtain ⟨hb, hm⟩ := h
        subst hb
        subst hm
        refine ⟨fun _ => ?_, fun hb => by cases hb⟩
        rw [release_permit_some _ (Option.getD m.semaphore m.max_concurrent - 1) rfl]
        constructor
        · simp only [AsyncRequestManager.slots, Option.getD_some]
          omega
        · simp
      · -- rate-limit check decides
        split at h
        · -- admitted: the slot and the active permit are kept
          rename_i hrc
          simp only [Option.some.injEq, Prod.mk.injEq] at h
          obtain ⟨hb, hm⟩ := h
          subst hb
          subst hm
          refine ⟨(fun hb => nomatch hb), fun _ => ?_⟩
          have hf := check_rate_limits_frame
            { m with circuit_breaker := (m.circuit_breaker.can_execute t).2,
                     semaphore := some (Option.getD m.semaphore m.max_concurrent - 1),
                     active_permits := m.active_permits + 1 } t 0
          refine ⟨?_, ?_, ?_, ?_⟩
          · simp only [AsyncRequestManager.slots, hf.1, hf.2.1, Option.getD_some]
            omega
          · exact hf.2.2
          · exact hf.1
          · exact hf.2.1
        · -- rate-limited: the just-acquired slot is released before returning false
          rename_i hrc
          simp only [Option.some.injEq, Prod.mk.injEq] at h
          obtain ⟨hb, hm⟩ := h
          subst hb
          subst hm
          refine ⟨fun _ => ?_, fun hb => by cases hb⟩
          have hf := check_rate_limits_frame
            { m with circuit_breaker := (m.circuit_breaker.can_execute t).2,
                     semaphore := some (Option.getD m.semaphore m.max_concurrent - 1),
                     active_permits := m.active_permits + 1 } t 0
          rw [release_permit_some _ (Option.getD m.semaphore m.max_concurrent - 1) hf.1]
          constructor
          · simp only [AsyncRequestManager.slots, hf.2.1, Option.getD_some]
            omega
          · simp only [hf.2.2]
            simp

theorem process_single_request_restores (m2 : AsyncRequestManager) (res : CallResult)
    (t : Int) (w : Nat) (hsem : m2.semaphore = some w) (hact : 0 < m2.active_permits) :
    (m2.process_single_request res t).2.semaphore = some (w + 1) ∧
    (m2.process_single_request res t).2.active_permits = m2.active_permits - 1 ∧
    (m2.process_single_request res t).2.max_concurrent = m2.max_concurrent := by
  cases res with
  | ok r =>
    refine ⟨?_, ?_, ?_⟩
    · show ((m2.record_success).release_permit).semaphore = some (w + 1)
      simp only [AsyncRequestManager.record_success, AsyncRequestManager.release_permit, hsem]
    · show ((m2.record_success).release_permit).active_permits = m2.active_permits - 1
      simp only [AsyncRequestManager.record_success, AsyncRequestManager.release_permit, hsem]
      rw [if_pos hact]
    · show ((m2.record_success).release_permit).max_concurrent = m2.max_concurrent
      simp only [AsyncRequestManager.record_success, AsyncRequestManager.release_permit, hsem]
  | exn msg =>
    refine ⟨?_, ?_, ?_⟩
    · show (((m2.record_failure t)).release_permit).semaphore = some (w + 1)
      simp only [AsyncRequestManager.record_failure, AsyncRequestManager.release_permit, hsem]
    · show (((m2.record_failure t)).release_permit).active_permits = m2.active_permits - 1
      simp only [AsyncRequestManager.record_failure, AsyncRequestManager.release_permit, hsem]
      rw [if_pos hact]
    · show (((m2.record_failure t)).release_permit).max_concurrent = m2.max_concurrent
      simp only [AsyncRequestManager.record_failure, AsyncRequestManager.release_permit, hsem]

theorem request_step_frame (m : AsyncRequestManager) (t : Int) (exc : Bool)
    (res : CallResult) (m2 : AsyncRequestManager)
    (h : m.request_step t exc res = some m2) :
    m2.slots = m.slots ∧ m2.active_permits = m.active_permits := by
  unfold AsyncRequestManager.request_step at h
  cases hacq : m.acquire_permit t exc with
  | none => rw [hacq] at h; cases h
  | some p =>
    obtain ⟨b, ma⟩ := p
    have hbal := acquire_permit_balance m t exc b ma hacq
    rw [hacq] at h
    cases b with
    | false =>
      simp only [Option.some.injEq] at h
      subst h
      exact hbal.1 rfl
    | true =>
      simp only [Option.some.injEq] at h
      subst h
      have h3 := hbal.2 rfl
      have h4 := process_single_request_restores ma res t (m.slots - 1) h3.2.2.1
        (by omega)
      constructor
      · show ((ma.process_single_request res t).2.semaphore).getD
          (ma.process_single_request res t).2.max_concurrent = m.slots
        rw [h4.1, h4.2.2]
        simp only [Option.getD_some]
        omega
      · rw [h4.2.1]
        omega

theorem runRequests_frame (steps : List (Int × Bool × CallResult)) :
    ∀ (m m2 : AsyncRequestManager), m.runRequests steps = some m2 →
      m2.slots = m.slots ∧ m2.active_permits = m.active_permits := by
  induction steps with
  | nil =>
    intro m m2 h
    simp only [AsyncRequestManager.runRequests, Option.some.injEq] at h
    subst h
    exact ⟨rfl, rfl⟩
  | cons s rest ih =>
    intro m m2 h
    obtain ⟨t, exc, res⟩ := s
    unfold AsyncRequestManager.runRequests at h
    cases hstep : m.request_step t exc res with
    | none => rw [hstep] at h; cases h
    | some mm =>
      rw [hstep] at h
      have h1 := request_step_frame m t exc res mm hstep
      have h2 := ih mm m2 h
      exact ⟨h2.1.trans h1.1, h2.2.trans h1.2⟩

/-! Lemmas about the circuit breaker (C7, C10). -/

theorem record_failure_failures (cb : CircuitBreaker) (t : Int) :
    (cb.record_failure t).failures = cb.failures + 1 := by
  simp only [CircuitBreaker.record_failure]
  split <;> rfl

theorem record_failure_config (cb : CircuitBreaker) (t : Int) :
    (cb.record_failure t).config = cb.config := by
  simp only [CircuitBreaker.record_failure]
  split <;> rfl

theorem record_failure_state (cb : CircuitBreaker) (t : Int) :
    (cb.record_failure t).state =
      if cb.config.failure_threshold ≤ cb.failures + 1 then CBState.opened
      else cb.state := by
  simp only [CircuitBreaker.record_failure]
  by_cases h : cb.config.failure_threshold ≤ cb.failures + 1
  · rw [if_pos h, if_pos h]
  · rw [if_neg h, if_neg h]

theorem record_failure_ne_halfOpen (cb : CircuitBreaker) (t : Int)
    (h : cb.state ≠ CBState.halfOpen) :
    (cb.record_failure t).state ≠ CBState.halfOpen := by
  rw [record_failure_state]
  split
  · decide
  · exact h

theorem record_success_of_ne_halfOpen (cb : CircuitBreaker)
    (h : cb.state ≠ CBState.halfOpen) : cb.record_success = cb := by
  unfold CircuitBreaker.record_success
  rw [if_neg h]

theorem runEvents_opened (evs : List CBEvent) :
    ∀ cb : CircuitBreaker, cb.state = CBState.opened →
      (cb.runEvents evs).state = CBState.opened := by
  induction evs with
  | nil => intro cb h; exact h
  | cons e rest ih =>
    intro cb h
    cases e with
    | failure t =>
      show ((cb.record_failure t).runEvents rest).state = _
      apply ih
      rw [record_failure_state]
      split
      · rfl
      · exact h
    | success =>
      show ((cb.record_success).runEvents rest).state = _
      rw [record_success_of_ne_halfOpen cb (by rw [h]; decide)]
      exact ih cb h

theorem runEvents_opens (evs : List CBEvent) :
    ∀ cb : CircuitBreaker, cb.state ≠ CBState.halfOpen →
      1 ≤ countFailures evs →
      cb.config.failure_threshold ≤ cb.failures + countFailures evs →
      (cb.runEvents evs).state = CBState.opened := by
  induction evs with
  | nil =>
    intro cb h1 h2 h3
    simp [countFailures] at h2
  | cons e rest ih =>
    intro cb h1 h2 h3
    cases e with
    | success =>
      show ((cb.record_success).runEvents rest).state = _
      rw [record_success_of_ne_halfOpen cb h1]
      have hcf : countFailures (CBEvent.success :: rest) = countFailures rest := rfl
      exact ih cb h1 (by omega) (by omega)
    | failure t =>
      show ((cb.record_failure t).runEvents rest).state = _
      have hcf : countFailures (CBEvent.failure t :: rest) = countFailures rest + 1 := rfl
      by_cases hc : 1 ≤ countFailures rest
      · apply ih
        · exact record_failure_ne_halfOpen cb t h1
        · exact hc
        · rw [record_failure_config, record_failure_failures]
          omega
      · have hth : cb.config.failure_threshold ≤ cb.failures + 1 := by omega
        have hopen : (cb.record_failure t).state = CBState.opened := by
          rw [record_failure_state, if_pos hth]
        exact runEvents_opened rest _ hopen

/-! Lemmas about cleanup (C5). -/

theorem cleanup_loop_stuck (fuel : Nat) :
    ∀ m : AsyncRequestManager, 0 < m.active_permits →
      AsyncRequestManager.cleanup_loop fuel m = none := by
  induction fuel with
  | zero =>
    intro m h
    simp only [AsyncRequestManager.cleanup_loop, if_pos h]
  | succ n ih =>
    intro m h
    simp only [AsyncRequestManager.cleanup_loop, if_pos h]
    cases hsem : m.semaphore with
    | none =>
      simp only [AsyncRequestManager.release_permit_locked, hsem]
      exact ih m h
    | some v =>
      simp only [AsyncRequestManager.release_permit_locked, hsem]

theorem cleanup_stuck (fuel : Nat) (m : AsyncRequestManager)
    (h : 0 < m.active_permits) : m.cleanup fuel = none := by
  unfold AsyncRequestManager.cleanup
  rw [cleanup_loop_stuck fuel m h]
  rfl

theorem cleanup_done (fuel : Nat) (m : AsyncRequestManager)
    (h : m.active_permits = 0) :
    m.cleanup fuel = some { m with semaphore := none } := by
  unfold AsyncRequestManager.cleanup
  have hl : AsyncRequestManager.cleanup_loop fuel m = some m := by
    cases fuel with
    | zero => simp [AsyncRequestManager.cleanup_loop, h]
    | succ n => simp [AsyncRequestManager.cleanup_loop, h]
  rw [hl]
  rfl

/-- Unfolding equation for process_batch used by the batch-level claims. -/
theorem process_batch_def (k : Nat) (R : List α) (plan : List ChunkRun)
    (abort : Option Nat) :
    process_batch k R plan abort =
      batchLoop ((chunk_requests k R).zip plan) abort 1
        { resetStats with
          total_chunks := resetStats.total_chunks + (chunk_requests k R).length } := rfl

/-! The claims. -/

/-- C1, counterexample: one single request whose permit is denied. The batch
returns its synthesized failed Outcome, but neither processed nor failed is
incremented (processor.py lines 95-104 append the response without a stats
update), so processed + failed = 0 while len(R) = 1: the claimed invariant
processed + failed = len(R) fails, and no failed increment accompanies the
synthesized Outcome. -/
theorem C1_counterexample :
    (process_batch 1 [0] [ChunkRun.ok [Fate.denied]] none).2.processed +
        (process_batch 1 [0] [ChunkRun.ok [Fate.denied]] none).2.failed = 0 ∧
    ([0] : List Nat).length = 1 := by decide

/-- C1 (amended): after process_batch(R) completes with no fatal abort and a
plan with one fate per request, stats.processed + stats.failed + (number of
permit-denied requests) = len(R). A permit-denied request receives a
synthesized failed Outcome immediately, but failed is NOT incremented for it,
so processed + failed falls short of len(R) by exactly the number of
denials. -/
theorem C1_stats_accounting (k : Nat) (hk : 0 < k) (R : List α)
    (plan : List ChunkRun)
    (halign : alignedPlan (chunk_requests k R) plan = true) :
    (process_batch k R plan none).2.processed +
        (process_batch k R plan none).2.failed + planDenied plan = R.length := by
  rw [process_batch_def]
  rw [batchLoop_stats (chunk_requests k R) plan 1 _ halign]
  have hs := chunk_requests_sum_lengths k hk R
  have hp : ({ resetStats with
      total_chunks := resetStats.total_chunks + (chunk_requests k R).length } :
      Stats).processed = 0 := rfl
  have hf : ({ resetStats with
      total_chunks := resetStats.total_chunks + (chunk_requests k R).length } :
      Stats).failed = 0 := rfl
  omega

/-- C1 witness: a three-request batch in chunks of two where the first
request is permit-denied; processed + failed + 1 = 3. -/
theorem C1_witness :
    (process_batch 2 [0, 1, 2]
          [ChunkRun.ok [Fate.denied, Fate.completed respA],
           ChunkRun.ok [Fate.completed respB]] none).2.processed +
        (process_batch 2 [0, 1, 2]
          [ChunkRun.ok [Fate.denied, Fate.completed respA],
           ChunkRun.ok [Fate.completed respB]] none).2.failed +
        planDenied [ChunkRun.ok [Fate.denied, Fate.completed respA],
           ChunkRun.ok [Fate.completed respB]] =
      ([0, 1, 2] : List Nat).length :=
  C1_stats_accounting 2 (by decide) [0, 1, 2]
    [ChunkRun.ok [Fate.denied, Fate.completed respA],
     ChunkRun.ok [Fate.completed respB]] (by decide)

/-- C2, counterexample: a chunk whose first request is granted (and completes
with respA) and whose second request is permit-denied. process_chunk appends
the denied request's outcome during the dispatch loop and the granted
request's outcome only in the later collection loop, so the returned list is
[denied-outcome, respA], not the submission order [respA, denied-outcome]. -/
theorem C2_counterexample :
    (process_chunk [Fate.completed respA, Fate.denied] resetStats).1 =
        [failedAcquireResponse, respA] ∧
    [Fate.completed respA, Fate.denied].map Fate.outcome =
        [respA, failedAcquireResponse] ∧
    ([failedAcquireResponse, respA] ≠ [respA, failedAcquireResponse]) := by
  decide

/-- C2 (amended): within a chunk the outcomes of permit-denied requests come
first (in submission order), followed by the outcomes of the dispatched
requests in submission order regardless of completion order; when no request
in the chunk is denied, the chunk's outcome list is exactly in submission
order; and across chunks process_batch concatenates the per-chunk outcome
lists in chunk order. -/
theorem C2_outcome_order (fs : List Fate) (st : Stats) :
    ((process_chunk fs st).1 =
        (fs.filter Fate.isDenied).map Fate.outcome ++
          (fs.filter fun f => !(f.isDenied)).map Fate.outcome) ∧
    (fs.all (fun f => !(f.isDenied)) = true →
        (process_chunk fs st).1 = fs.map Fate.outcome) ∧
    (∀ (β : Type) (pairs : List (List β × ChunkRun)) (i : Nat) (st2 : Stats),
        (batchLoop pairs none i st2).1 = (chunkOutcomeLists i pairs).flatten) := by
  refine ⟨process_chunk_fst fs st, ?_, ?_⟩
  · intro hall
    rw [process_chunk_fst]
    have h1 : fs.filter Fate.isDenied = [] := by
      rw [List.filter_eq_nil_iff]
      intro f hf hd
      have h2 := List.all_eq_true.mp hall f hf
      rw [hd] at h2
      exact absurd h2 (by decide)
    have h2 : fs.filter (fun f => !(f.isDenied)) = fs :=
      List.filter_eq_self.mpr (List.all_eq_true.mp hall)
    rw [h1, h2]
    simp
  · intro β pairs i st2
    exact batchLoop_flatten pairs i st2

/-- C2 witness: a chunk with no denials is returned exactly in submission
order. -/
theorem C2_witness :
    (process_chunk [Fate.completed respA, Fate.completed respB] resetStats).1 =
      [Fate.completed respA, Fate.completed respB].map Fate.outcome :=
  (C2_outcome_order [Fate.completed respA, Fate.completed respB] resetStats).2.1
    (by decide)

/-- C3, counterexample: two requests in chunks of one, with a fatal
outer-loop condition striking after the first chunk. The returned list has
length 1, not 2: the not-yet-processed request is silently dropped rather
than represented as a failed Outcome. -/
theorem C3_counterexample :
    (process_batch 1 [0, 1]
        [ChunkRun.ok [Fate.completed respA], ChunkRun.ok [Fate.completed respB]]
        (some 1)).1.length = 1 ∧
    ([0, 1] : List Nat).length = 2 := by decide

/-- C3 (amended): with no fatal outer-loop condition, process_batch never
raises for per-request failures or whole-chunk failures (both are converted
to failed Outcomes) and returns exactly len(R) outcomes; but when a fatal
condition aborts the outer batch loop before the (j+1)-th chunk, only the
outcomes of the first j chunks are returned - the not-yet-processed requests
are dropped from the returned list, not represented as failed Outcomes. -/
theorem C3_batch_length (k : Nat) (hk : 0 < k) (R : List α)
    (plan : List ChunkRun)
    (halign : alignedPlan (chunk_requests k R) plan = true) (j : Nat) :
    (process_batch k R plan none).1.length = R.length ∧
    (process_batch k R plan (some j)).1.length =
      (((chunk_requests k R).take j).map List.length).sum := by
  constructor
  · rw [process_batch_def, batchLoop_length (chunk_requests k R) plan 1 _ halign,
      chunk_requests_sum_lengths k hk]
  · rw [process_batch_def, batchLoop_abort_length (chunk_requests k R) plan j 1 _ halign]

/-- C3 witness: the two-request, chunk-size-one batch returns 2 outcomes when
no fatal condition occurs, and only the first chunk's outcome when aborted
before chunk 2. -/
theorem C3_witness :
    (process_batch 1 ([0, 1] : List Nat)
        [ChunkRun.ok [Fate.completed respA], ChunkRun.ok [Fate.completed respB]]
        none).1.length = ([0, 1] : List Nat).length ∧
    (process_batch 1 ([0, 1] : List Nat)
        [ChunkRun.ok [Fate.completed respA], ChunkRun.ok [Fate.completed respB]]
        (some 1)).1.length =
      (((chunk_requests 1 ([0, 1] : List Nat)).take 1).map List.length).sum :=
  C3_batch_length 1 (by decide) [0, 1]
    [ChunkRun.ok [Fate.completed respA], ChunkRun.ok [Fate.completed respB]]
    (by decide) 1

/-- C4: permit accounting is balanced. A circuit-breaker denial consumes no
slot and leaves active_permits alone; a rate-limit denial or an unexpected
failure during acquisition releases the just-acquired slot before returning
false; a granted acquire takes exactly one slot and counts one active permit,
and the guaranteed release in _process_single_request restores both on the
success path and on the error path of the dispatched call; consequently any
completed sequence of request steps leaves the slot count and active_permits
where they started, and a batch begun with active_permits = 0 ends with
active_permits = 0. -/
theorem C4_permit_balance :
    (∀ (m : AsyncRequestManager) (t : Int) (exc : Bool) (b : Bool)
        (m2 : AsyncRequestManager), m.acquire_permit t exc = some (b, m2) →
        (b = false → m2.slots = m.slots ∧ m2.active_permits = m.active_permits) ∧
        (b = true → m2.slots + 1 = m.slots ∧
          m2.active_permits = m.active_permits + 1 ∧
          ∀ (res : CallResult) (t2 : Int),
            (m2.process_single_request res t2).2.slots = m.slots ∧
            (m2.process_single_request res t2).2.active_permits =
              m.active_permits)) ∧
    (∀ (steps : List (Int × Bool × CallResult)) (m m2 : AsyncRequestManager),
        m.runRequests steps = some m2 →
        m2.slots = m.slots ∧ m2.active_permits = m.active_permits) ∧
    (∀ (steps : List (Int × Bool × CallResult)) (m m2 : AsyncRequestManager),
        m.active_permits = 0 → m.runRequests steps = some m2 →
        m2.active_permits = 0) := by
  refine ⟨?_, ?_, ?_⟩
  · intro m t exc b m2 h
    have hbal := acquire_permit_balance m t exc b m2 h
    refine ⟨hbal.1, fun hb => ?_⟩
    have h3 := hbal.2 hb
    refine ⟨h3.1, h3.2.1, fun res t2 => ?_⟩
    have h4 := process_single_request_restores m2 res t2 (m.slots - 1) h3.2.2.1
      (by omega)
    constructor
    · show ((m2.process_single_request res t2).2.semaphore).getD
        (m2.process_single_request res t2).2.max_concurrent = m.slots
      rw [h4.1, h4.2.2]
      simp only [Option.getD_some]
      omega
    · rw [h4.2.1]
      omega
  · intro steps m m2 h
    exact runRequests_frame steps m m2 h
  · intro steps m m2 h0 h
    have h1 := runRequests_frame steps m m2 h
    omega

/-- C4 witness: a fresh manager runs a two-request batch (one call succeeds,
one raises); afterwards active_permits is back to 0 and all five slots are
free. -/
theorem C4_witness :
    ((mFresh.runRequests stepsTwo).getD mFresh).active_permits = 0 ∧
    ((mFresh.runRequests stepsTwo).getD mFresh).slots = 5 := by
  have hEq : mFresh.runRequests stepsTwo =
      some ((mFresh.runRequests stepsTwo).getD mFresh) := rfl
  have h2 := C4_permit_balance.2.1 stepsTwo mFresh
    ((mFresh.runRequests stepsTwo).getD mFresh) hEq
  exact ⟨h2.2.trans rfl, h2.1.trans rfl⟩

/-- C5: the claim is right and the code is wrong. cleanup's while loop runs
while it already holds _permits_lock; each iteration calls release_permit,
which either suspends forever awaiting that same non-reentrant lock (when
the semaphore exists) or returns without touching active_permits (when the
semaphore is None, looping forever) - so whenever active_permits > 0 at scope
exit, cleanup never terminates, for any number of observed steps; only with
active_permits = 0 does cleanup complete and tear the pool down. -/
theorem C5_cleanup_never_terminates :
    (∀ (fuel : Nat) (m : AsyncRequestManager), 0 < m.active_permits →
        m.cleanup fuel = none) ∧
    (∀ (fuel : Nat) (m : AsyncRequestManager), m.active_permits = 0 →
        m.cleanup fuel = some { m with semaphore := none }) :=
  ⟨fun fuel m h => cleanup_stuck fuel m h, fun fuel m h => cleanup_done fuel m h⟩

/-- C5 witness: a manager holding one permit never finishes cleanup (1000
observed steps); an idle manager's cleanup completes and clears the pool. -/
theorem C5_witness :
    mHolding.cleanup 1000 = none ∧
    mIdle.cleanup 1000 = some { mIdle with semaphore := none } :=
  ⟨C5_cleanup_never_terminates.1 1000 mHolding (by decide),
   C5_cleanup_never_terminates.2 1000 mIdle rfl⟩

/-- C6, counterexample: with requests_per_minute = 2, checks at times 1, 2, 3
admit, admit, deny; the check at time 62 (elapsed 62 >= 60) admits via the
reset branch, but that branch returns without counting the call:
requests_made is 0 after the admitting check, not 1 as claimed. -/
theorem C6_counterexample :
    (mFresh.check_rate_limits 1 0).1 = true ∧
    ((mFresh.check_rate_limits 1 0).2.check_rate_limits 2 0).1 = true ∧
    (((mFresh.check_rate_limits 1 0).2.check_rate_limits 2 0).2.check_rate_limits
        3 0).1 = false ∧
    ((((mFresh.check_rate_limits 1 0).2.check_rate_limits 2 0).2.check_rate_limits
        3 0).2.check_rate_limits 62 0).1 = true ∧
    ((((mFresh.check_rate_limits 1 0).2.check_rate_limits 2 0).2.check_rate_limits
        3 0).2.check_rate_limits 62 0).2.requests_made = 0 ∧
    ((0 : Int) ≠ 1) := by decide

/-- C6 (amended): with requests_per_minute = 2 and a positive token budget,
starting from zeroed counters, three admission checks within one window admit
exactly the first two and deny the third; after an elapsed gap of 60 seconds
or more the next check admits again via the reset branch, with the counters
fully reset - the admitting reset call itself is not counted, so
requests_made is 0 (not 1) after that check, tokens_used is 0, and the
window start moves to the reset time. -/
theorem C6_rate_window (M : AsyncRequestManager) (tpm : Int) (mc cs : Nat)
    (cb : CircuitBreaker) (sem : Option Nat) (ap : Nat) (t0 t1 t2 t3 t4 : Int)
    (hM : M = ⟨⟨2, tpm⟩, mc, cs, cb, sem, 0, 0, t0, ap⟩)
    (htpm : 0 < tpm)
    (hw1 : t1 - t0 < 60) (hw2 : t2 - t0 < 60) (hw3 : t3 - t0 < 60)
    (hw4 : 60 ≤ t4 - t0) :
    (M.check_rate_limits t1 0).1 = true ∧
    ((M.check_rate_limits t1 0).2.check_rate_limits t2 0).1 = true ∧
    (((M.check_rate_limits t1 0).2.check_rate_limits t2 0).2.check_rate_limits
        t3 0).1 = false ∧
    ((((M.check_rate_limits t1 0).2.check_rate_limits t2 0).2.check_rate_limits
        t3 0).2.check_rate_limits t4 0).1 = true ∧
    ((((M.check_rate_limits t1 0).2.check_rate_limits t2 0).2.check_rate_limits
        t3 0).2.check_rate_limits t4 0).2.requests_made = 0 ∧
    ((((M.check_rate_limits t1 0).2.check_rate_limits t2 0).2.check_rate_limits
        t3 0).2.check_rate_limits t4 0).2.tokens_used = 0 ∧
    ((((M.check_rate_limits t1 0).2.check_rate_limits t2 0).2.check_rate_limits
        t3 0).2.check_rate_limits t4 0).2.last_reset = t4 := by
  subst hM
  have e1 : (⟨⟨2, tpm⟩, mc, cs, cb, sem, 0, 0, t0, ap⟩ :
      AsyncRequestManager).check_rate_limits t1 0 =
      (true, ⟨⟨2, tpm⟩, mc, cs, cb, sem, 1, 0, t0, ap⟩) := by
    simp only [AsyncRequestManager.check_rate_limits]
    rw [if_neg (show ¬ (60 : Int) ≤ t1 - t0 by omega),
      if_neg (show ¬ ((2 : Int) ≤ 0 ∨ tpm ≤ 0 + 0) by omega)]
    norm_num
  have e2 : (⟨⟨2, tpm⟩, mc, cs, cb, sem, 1, 0, t0, ap⟩ :
      AsyncRequestManager).check_rate_limits t2 0 =
      (true, ⟨⟨2, tpm⟩, mc, cs, cb, sem, 2, 0, t0, ap⟩) := by
    simp only [AsyncRequestManager.check_rate_limits]
    rw [if_neg (show ¬ (60 : Int) ≤ t2 - t0 by omega),
      if_neg (show ¬ ((2 : Int) ≤ 1 ∨ tpm ≤ 0 + 0) by omega)]
    norm_num
  have e3 : (⟨⟨2, tpm⟩, mc, cs, cb, sem, 2, 0, t0, ap⟩ :
      AsyncRequestManager).check_rate_limits t3 0 =
      (false, ⟨⟨2, tpm⟩, mc, cs, cb, sem, 2, 0, t0, ap⟩) := by
    simp only [AsyncRequestManager.check_rate_limits]
    rw [if_neg (show ¬ (60 : Int) ≤ t3 - t0 by omega),
      if_pos (show (2 : Int) ≤ 2 ∨ tpm ≤ 0 + 0 by left; omega)]
  have e4 : (⟨⟨2, tpm⟩, mc, cs, cb, sem, 2, 0, t0, ap⟩ :
      AsyncRequestManager).check_rate_limits t4 0 =
      (true, ⟨⟨2, tpm⟩, mc, cs, cb, sem, 0, 0, t4, ap⟩) := by
    simp only [AsyncRequestManager.check_rate_limits]
    rw [if_pos (show (60 : Int) ≤ t4 - t0 by omega)]
  simp [e1, e2, e3, e4]

/-- C6 witness: the concrete run at times 1, 2, 3, 62 from a freshly
constructed manager with requests_per_minute = 2. -/
theorem C6_witness :
    ((((mFresh.check_rate_limits 1 0).2.check_rate_limits 2 0).2.check_rate_limits
        3 0).2.check_rate_limits 62 0).1 = true ∧
    ((((mFresh.check_rate_limits 1 0).2.check_rate_limits 2 0).2.check_rate_limits
        3 0).2.check_rate_limits 62 0).2.requests_made = 0 := by
  have h := C6_rate_window mFresh 1000 5 10 (CircuitBreaker.init {}) none 0
    0 1 2 3 62 rfl (by decide) (by decide) (by decide) (by decide) (by decide)
  exact ⟨h.2.2.2.1, h.2.2.2.2.1⟩

/-- C7, counterexample: a breaker that opened after five failures (threshold
5) reaches HalfOpen via can_execute at time 61 (reset_timeout 60 elapsed).
The failure count was not reset on that transition (still 5), so a SINGLE
record_failure while HalfOpen - one failure, far short of re-accumulating
the threshold of five - immediately moves the breaker back to Open. -/
theorem C7_counterexample :
    cbOpened.state = CBState.opened ∧
    cbOpened.failures = 5 ∧
    (cbOpened.can_execute 61).1 = true ∧
    (cbOpened.can_execute 61).2.state = CBState.halfOpen ∧
    (cbOpened.can_execute 61).2.failures = 5 ∧
    ((cbOpened.can_execute 61).2.record_failure 61).state = CBState.opened ∧
    ((cbOpened.can_execute 61).2.record_failure 61).failures = 6 ∧
    ((1 : Nat) < 5) := by decide

/-- C7 (amended): record_failure while HalfOpen runs the same code as any
other failure - it increments the count, stamps the time, and opens exactly
when the new count reaches the threshold; but because the Open-to-HalfOpen
transition in can_execute preserves the failure count, a breaker in HalfOpen
whose count is still at or above the threshold is re-opened by its very
first HalfOpen failure, not after the threshold is re-accumulated. -/
theorem C7_halfopen_failure (cb : CircuitBreaker) (t : Int)
    (hstate : cb.state = CBState.halfOpen) :
    (cb.record_failure t).failures = cb.failures + 1 ∧
    ((cb.record_failure t).state =
      if cb.config.failure_threshold ≤ cb.failures + 1 then CBState.opened
      else CBState.halfOpen) ∧
    (cb.config.failure_threshold ≤ cb.failures →
      (cb.record_failure t).state = CBState.opened) ∧
    (∀ (cb2 : CircuitBreaker) (t2 : Int), cb2.state = CBState.opened →
      (cb2.can_execute t2).2.failures = cb2.failures) := by
  refine ⟨record_failure_failures cb t, ?_, ?_, ?_⟩
  · rw [record_failure_state, hstate]
  · intro h
    rw [record_failure_state, if_pos (by omega)]
  · intro cb2 t2 h2
    simp only [CircuitBreaker.can_execute, h2]
    split <;> rfl

/-- C7 witness: the breaker of the counterexample trace, taken through the
amended theorem at its half-open state. -/
theorem C7_witness :
    ((cbOpened.can_execute 61).2.record_failure 61).state = CBState.opened :=
  (C7_halfopen_failure (cbOpened.can_execute 61).2 61 (by decide)).2.2.1 (by decide)

/-- C8: the claim is right and the code is wrong. release_permit with no
permit held does NOT leave the gate unchanged: asyncio.Semaphore.release
never raises ValueError (the except handler guarding double-release is dead
code), so an unmatched release on the idle manager grows the available-slot
count from max_concurrent = 5 to 6, exceeding max_concurrent; only
active_permits is protected by its explicit positivity guard. -/
theorem C8_release_unacquired :
    mIdle.active_permits = 0 ∧
    mIdle.slots = mIdle.max_concurrent ∧
    mIdle.release_permit.semaphore = some 6 ∧
    mIdle.release_permit.slots = mIdle.max_concurrent + 1 ∧
    mIdle.release_permit.active_permits = 0 := by decide

/-- C9: chunk_requests is pure and deterministic; for chunk_size k > 0 the
chunks concatenate back to the input in order, every chunk has length at
most k, every chunk but the last has length exactly k (so only the last may
be shorter), and the empty list yields zero chunks. -/
theorem C9_chunking (k : Nat) (hk : 0 < k) (R : List α) :
    (chunk_requests k R).flatten = R ∧
    (∀ c ∈ chunk_requests k R, c.length ≤ k) ∧
    (∀ c ∈ (chunk_requests k R).dropLast, c.length = k) ∧
    chunk_requests k ([] : List α) = [] :=
  ⟨chunk_requests_flatten k hk R, chunk_requests_length_le k R,
   chunk_requests_dropLast k hk R, chunk_requests_nil k⟩

/-- C9 witness: seven requests in chunks of three flatten back, and the last
(short) chunk is within the bound. -/
theorem C9_witness :
    (chunk_requests 3 [0, 1, 2, 3, 4, 5, 6]).flatten = [0, 1, 2, 3, 4, 5, 6] ∧
    ([6] : List Nat).length ≤ 3 :=
  ⟨(C9_chunking 3 (by decide) [0, 1, 2, 3, 4, 5, 6]).1,
   (C9_chunking 3 (by decide) [0, 1, 2, 3, 4, 5, 6]).2.1 [6] (by decide)⟩

/-- C10: record_success on a Closed breaker changes nothing (the breaker is
returned unchanged, failure count included), so failures interleaved with
successes in the Closed state keep accumulating: any event sequence with at
least failure_threshold failures, run from a fresh breaker, opens it - the
counted failures need not be consecutive. -/
theorem C10_success_frame_opens (cb : CircuitBreaker)
    (hclosed : cb.state = CBState.closed)
    (config : CircuitBreakerConfig) (evs : List CBEvent)
    (hth : 0 < config.failure_threshold)
    (hcount : config.failure_threshold ≤ countFailures evs) :
    cb.record_success = cb ∧
    ((CircuitBreaker.init config).runEvents evs).state = CBState.opened := by
  constructor
  · exact record_success_of_ne_halfOpen cb (by rw [hclosed]; decide)
  · refine runEvents_opens evs (CircuitBreaker.init config) ?_ ?_ ?_
    · exact (by decide : CBState.closed ≠ CBState.halfOpen)
    · omega
    · have h0 : (CircuitBreaker.init config).failures = 0 := rfl
      have h1 : (CircuitBreaker.init config).config = config := rfl
      rw [h1, h0]
      omega

/-- C10 witness: five failures interleaved with successes (never five
consecutive) open a fresh default breaker, and record_success on the fresh
Closed breaker is the identity. -/
theorem C10_witness :
    (CircuitBreaker.init {}).record_success = CircuitBreaker.init {} ∧
    ((CircuitBreaker.init {}).runEvents evsInterleaved).state = CBState.opened :=
  C10_success_frame_opens (CircuitBreaker.init {}) rfl {} evsInterleaved
    (by decide) (by decide)
